import Mathlib

set_option maxRecDepth 8192

/-!
Verification of the PINKMacroTool (Electron edition) core engines — the
macro engine (`macro-engine.js`) and the trigger engine
(`trigger-engine.js`) — against their natural-language specification.

Embedding conventions, chosen to mirror the JavaScript sources:
* classes become structures, methods become pure functions;
* JS `Map`s (which iterate in insertion order) become association lists;
* a JSON record field that may be `undefined` becomes an `Option` field;
* `uuidv4()` and `new Date()` become explicit `fresh`/`now` parameters;
* the shared mutable stop flag of a playback session, read at each
  checkpoint, becomes an oracle `stop : Nat → Bool` indexed by the number
  of reads performed so far (a concurrent `stopMacro` corresponds to the
  oracle switching to `true` at some index and staying `true`);
* the non-terminating `while` loop of `_playbackLoop` is run with explicit
  fuel bounding the number of `while` iterations; exhausting every fuel is
  how divergence is expressed;
* the single-threaded cooperative async scheduler of the renderer process
  becomes an explicit step model: each schedulable step is one synchronous
  segment of code between two `await` suspension points.
-/

/-- JS runtime values that can sit in `MacroAction.value`: `null`, a string
(mouse button name), a number (axis value), or an `{x, y}` coordinate
object used by mouse-move actions. -/
inductive JsVal where
  | null : JsVal
  | str : String → JsVal
  | num : Rat → JsVal
  | pos : Int → Int → JsVal
  deriving DecidableEq

/-- JS truthiness for `JsVal` (`null`, `""` and `0` are falsy). -/
def JsVal.truthy : JsVal → Bool
  | JsVal.null => false
  | JsVal.str s => decide (s ≠ "")
  | JsVal.num q => decide (q ≠ 0)
  | JsVal.pos _ _ => true

/-- One action of a macro: the `MacroAction` class of `macro-engine.js`.
`deviceId` is `Option` because the JS field may be `null`. -/
structure MacroAction where
  actionId : String
  actionType : String
  deviceId : Option String
  inputName : String
  value : JsVal
  duration : Int
  deriving DecidableEq

/-- A stored macro: the `Macro` class of `macro-engine.js`.  The
`createdAt`/`modifiedAt` dates are kept as their ISO strings, which is
exactly how they travel through `toJSON`/`fromJSON`. -/
structure Macro where
  macroId : String
  name : String
  actions : List MacroAction
  repeatCount : Int
  enabled : Bool
  description : String
  createdAt : String
  modifiedAt : String
  deriving DecidableEq

/-- Persisted shape of one action (`MacroAction.toJSON`).  Fields that the
loader would default when `undefined` are `Option`; `actionType` has no
default in the constructor so it is kept plain.  `value` needs no `Option`
because an absent value and a `null` value both load as `null`. -/
structure ActionRecord where
  actionId : Option String
  actionType : String
  deviceId : Option String
  inputName : Option String
  value : JsVal
  duration : Option Int
  deriving DecidableEq

/-- Persisted shape of one macro (`Macro.toJSON`). -/
structure MacroRecord where
  macroId : Option String
  name : Option String
  actions : Option (List ActionRecord)
  repeatCount : Option Int
  enabled : Option Bool
  description : Option String
  createdAt : Option String
  modifiedAt : Option String
  deriving DecidableEq

/-- `MacroAction.prototype.toJSON` — serializes every field. -/
def MacroAction.toJSON (a : MacroAction) : ActionRecord :=
  { actionId := some a.actionId
    actionType := a.actionType
    deviceId := a.deviceId
    inputName := some a.inputName
    value := a.value
    duration := some a.duration }

/-- `MacroAction.fromJSON` — the constructor applies defaults for absent
`deviceId`/`inputName`/`value`/`duration`, then `actionId` is restored via
`data.actionId || uuidv4()` (`||`, so the empty string also triggers a
fresh id). -/
def MacroAction.fromJSON (data : ActionRecord) (fresh : String) : MacroAction :=
  { actionId := match data.actionId with
      | some s => if s = "" then fresh else s
      | none => fresh
    actionType := data.actionType
    deviceId := data.deviceId
    inputName := data.inputName.getD ""
    value := data.value
    duration := data.duration.getD 0 }

/-- `Macro.prototype.toJSON` — serializes every field, actions mapped
through `MacroAction.toJSON`, dates as ISO strings. -/
def Macro.toJSON (m : Macro) : MacroRecord :=
  { macroId := some m.macroId
    name := some m.name
    actions := some (m.actions.map MacroAction.toJSON)
    repeatCount := some m.repeatCount
    enabled := some m.enabled
    description := some m.description
    createdAt := some m.createdAt
    modifiedAt := some m.modifiedAt }

/-- `Macro.fromJSON`.  Note the JS `||` defaults: `data.repeatCount || 1`
turns a recorded `0` (the documented infinite-loop value) &mdash; and any
other falsy value &mdash; into the default `1`.  `enabled` alone uses the
`!== undefined` pattern and so keeps a recorded `false`.  A `data.createdAt`
of `""` is falsy and yields `new Date()` (the `now` parameter). -/
def Macro.fromJSON (data : MacroRecord) (fresh : String) (now : String) : Macro :=
  { macroId := match data.macroId with
      | some s => if s = "" then fresh else s
      | none => fresh
    name := data.name.getD "New Macro"
    actions := (data.actions.getD []).map (fun a => MacroAction.fromJSON a fresh)
    repeatCount := match data.repeatCount with
      | some n => if n = 0 then 1 else n
      | none => 1
    enabled := data.enabled.getD true
    description := data.description.getD ""
    createdAt := match data.createdAt with
      | some s => if s = "" then now else s
      | none => now
    modifiedAt := match data.modifiedAt with
      | some s => if s = "" then now else s
      | none => now }

/-- The rational one half (JS `0.5`), the default axis threshold, built
directly so that kernel evaluation of equality tests is immediate. -/
def halfRat : Rat := { num := 1, den := 2 }

/-- A stored trigger: the `Trigger` class of `trigger-engine.js`. -/
structure Trigger where
  triggerId : String
  triggerType : String
  macroId : String
  deviceId : Option String
  inputName : String
  modifiers : List String
  axisThreshold : Rat
  holdDuration : Int
  doubleTapWindow : Int
  enabled : Bool
  deriving DecidableEq

/-- Persisted shape of one trigger (`Trigger.toJSON`). -/
structure TriggerRecord where
  triggerId : Option String
  triggerType : String
  macroId : String
  deviceId : Option String
  inputName : Option String
  modifiers : Option (List String)
  axisThreshold : Option Rat
  holdDuration : Option Int
  doubleTapWindow : Option Int
  enabled : Option Bool
  deriving DecidableEq

/-- `Trigger.prototype.toJSON` — serializes every field. -/
def Trigger.toJSON (t : Trigger) : TriggerRecord :=
  { triggerId := some t.triggerId
    triggerType := t.triggerType
    macroId := t.macroId
    deviceId := t.deviceId
    inputName := some t.inputName
    modifiers := some t.modifiers
    axisThreshold := some t.axisThreshold
    holdDuration := some t.holdDuration
    doubleTapWindow := some t.doubleTapWindow
    enabled := some t.enabled }

/-- `Trigger.fromJSON`.  As with macros, the numeric fields are restored
with `||`, so a recorded `0` for `axisThreshold`/`holdDuration`/
`doubleTapWindow` becomes the default (`0.5`/`500`/`300`).  A recorded
empty `modifiers` array is truthy in JS and is kept. -/
def Trigger.fromJSON (data : TriggerRecord) (fresh : String) : Trigger :=
  { triggerId := match data.triggerId with
      | some s => if s = "" then fresh else s
      | none => fresh
    triggerType := data.triggerType
    macroId := data.macroId
    deviceId := data.deviceId
    inputName := data.inputName.getD ""
    modifiers := data.modifiers.getD []
    axisThreshold := match data.axisThreshold with
      | some q => if q = 0 then halfRat else q
      | none => halfRat
    holdDuration := match data.holdDuration with
      | some n => if n = 0 then 500 else n
      | none => 500
    doubleTapWindow := match data.doubleTapWindow with
      | some n => if n = 0 then 300 else n
      | none => 300
    enabled := data.enabled.getD true }

/-- Index of the first action with the given id, mirroring
`this.actions.findIndex(a => a.actionId === actionId)` (with `none` for
the JS result `-1`). -/
def findIndexById : List MacroAction → String → Option Nat
  | [], _ => none
  | a :: rest, id =>
    if a.actionId = id then some 0
    else Option.map (fun n => n + 1) (findIndexById rest id)

/-- Insertion at a (already clamped) position, the effect of
`actions.splice(n, 0, a)` for `0 ≤ n ≤ actions.length`. -/
def insertAt : Nat → MacroAction → List MacroAction → List MacroAction
  | 0, a, l => a :: l
  | _ + 1, a, [] => [a]
  | n + 1, a, x :: xs => x :: insertAt n a xs

/-- `actions.splice(newIndex, 0, action)` including the index
normalization JS `splice` performs: a negative index counts from the end
(clamped at 0), a too-large index is clamped to the length. -/
def spliceInsert (l : List MacroAction) (idx : Int) (a : MacroAction) : List MacroAction :=
  let n : Nat := if idx < 0 then Int.toNat ((l.length : Int) + idx) else min (Int.toNat idx) l.length
  insertAt n a l

/-- `Macro.prototype.moveAction`: locate the action by id; when found,
remove it, reinsert it at `newIndex` and refresh `modifiedAt` (`now`);
when `findIndex` returns `-1` nothing at all happens. -/
def Macro.moveAction (m : Macro) (actionId : String) (newIndex : Int) (now : String) : Macro :=
  match findIndexById m.actions actionId with
  | none => m
  | some i =>
    match m.actions.get? i with
    | none => m
    | some a =>
      { m with
        actions := spliceInsert (m.actions.eraseIdx i) newIndex a
        modifiedAt := now }

/-- `TriggerEngine._cleanupPressTimes`: keep only press timestamps from
the last second (`now - t < 1000`, strict). -/
def cleanupPressTimes (times : List Int) (now : Int) : List Int :=
  times.filter (fun t => decide (now - t < 1000))

/-- The per-input press-time history right after `_handleKeyDown` records
a press at `now`: push the new timestamp, then prune (the fresh entry
itself always survives pruning since `now - now = 0`). -/
def handleKeyDownTimes (times : List Int) (now : Int) : List Int :=
  cleanupPressTimes (times ++ [now]) now

/-- `TriggerEngine._checkDoubleTap`: `false` with fewer than two recorded
presses, else compare the gap of the last two (`slice(-2)`) against the
window, inclusively. -/
def checkDoubleTap (times : List Int) (window : Int) : Bool :=
  if times.length < 2 then false
  else
    match times.reverse with
    | b :: a :: _ => decide (b - a ≤ window)
    | _ => false

/-- Gap between the two most recent recorded timestamps (last minus
second-to-last), the quantity `_checkDoubleTap` compares to the window. -/
def tapGap (times : List Int) : Int :=
  match times.reverse with
  | b :: a :: _ => b - a
  | _ => 0

/-- `TriggerEngine._checkModifiers`: every listed modifier must currently
be in the pressed-keys set. -/
def checkModifiers (modifiers : List String) (pressed : List String) : Bool :=
  modifiers.all (fun modKey => pressed.contains modKey)

/-- Device gating as applied in `_checkKeyTriggers`:
`if (trigger.deviceId && !this.deviceManager.shouldProcessDeviceInput(trigger.deviceId)) continue;`
— a `null` (or falsy, i.e. empty) device id skips the check entirely,
otherwise `shouldProcess` decides. -/
def gatePass (shouldProcess : String → Bool) (t : Trigger) : Bool :=
  match t.deviceId with
  | none => true
  | some d => if d = "" then true else shouldProcess d

/-- Lookup in an insertion-ordered association list, modelling
`Map.prototype.get` (with the empty list for a missing key, matching how
the engine treats an absent history). -/
def lookupTimes : List (String × List Int) → String → List Int
  | [], _ => []
  | p :: rest, k => if p.1 = k then p.2 else lookupTimes rest k

/-- `Map.prototype.set` on the press-time map: replace in place when the
key exists, append otherwise. -/
def setTimes : List (String × List Int) → String → List Int → List (String × List Int)
  | [], k, v => [(k, v)]
  | p :: rest, k, v => if p.1 = k then (k, v) :: rest else p :: setTimes rest k v

/-- `Map.prototype.get` on the hold-timer map: `some trig` when a timer
armed for `trig` is outstanding on this input. -/
def findTimer : List (String × Trigger) → String → Option Trigger
  | [], _ => none
  | p :: rest, k => if p.1 = k then some p.2 else findTimer rest k

/-- `Map.prototype.set` on the hold-timer map (arming replaces any
existing timer for the same input, as `_setupHoldTimer` clears it first). -/
def setTimer : List (String × Trigger) → String → Trigger → List (String × Trigger)
  | [], k, t => [(k, t)]
  | p :: rest, k, t => if p.1 = k then (k, t) :: rest else p :: setTimer rest k t

/-- `clearTimeout` + `Map.prototype.delete` on the hold-timer map. -/
def delTimer : List (String × Trigger) → String → List (String × Trigger)
  | [], _ => []
  | p :: rest, k => if p.1 = k then delTimer rest k else p :: delTimer rest k

/-- State of a `TriggerEngine` instance.  `triggers` is the values of the
trigger `Map` in insertion order; `keyHoldTimers` maps an input to the
trigger captured by its one outstanding `setTimeout`; `activations`
records, in order, the trigger ids passed to `_activateTrigger`. -/
structure TEState where
  monitoring : Bool
  triggers : List Trigger
  pressedKeys : List String
  keyPressTimes : List (String × List Int)
  keyHoldTimers : List (String × Trigger)
  activations : List String
  deriving DecidableEq

/-- `TriggerEngine._activateTrigger` (the `playMacro` request itself is
outside this model; we record the firing). -/
def activateTrigger (s : TEState) (t : Trigger) : TEState :=
  { s with activations := s.activations ++ [t.triggerId] }

/-- `TriggerEngine._setupHoldTimer`: clear any timer on this input and arm
a fresh one capturing `t`. -/
def setupHoldTimer (s : TEState) (t : Trigger) (key : String) : TEState :=
  { s with keyHoldTimers := setTimer s.keyHoldTimers key t }

/-- The body of the `for (const trigger of this.triggers.values())` loop
in `TriggerEngine._checkKeyTriggers`, for one trigger. -/
def processKeyTrigger (shouldProcess : String → Bool) (st : TEState) (t : Trigger)
    (key : String) : TEState :=
  if t.enabled = false then st
  else if gatePass shouldProcess t = false then st
  else
    let st1 := if t.triggerType = "key_press" ∧ t.inputName = key then activateTrigger st t else st
    let st2 :=
      if t.triggerType = "key_combo" ∧ t.inputName = key ∧
          checkModifiers t.modifiers st1.pressedKeys = true
      then activateTrigger st1 t else st1
    let st3 := if t.triggerType = "key_hold" ∧ t.inputName = key then setupHoldTimer st2 t key else st2
    if t.triggerType = "key_double_tap" ∧ t.inputName = key ∧
        checkDoubleTap (lookupTimes st3.keyPressTimes key) t.doubleTapWindow = true
    then activateTrigger st3 t else st3

/-- `TriggerEngine._checkKeyTriggers`: iterate the registered triggers in
insertion order. -/
def checkKeyTriggers (shouldProcess : String → Bool) (s : TEState) (key : String) : TEState :=
  s.triggers.foldl (fun st t => processKeyTrigger shouldProcess st t key) s

/-- `TriggerEngine._handleKeyDown`: when monitoring, add the key to the
pressed set, record the press time, prune old ones, then check triggers. -/
def handleKeyDown (shouldProcess : String → Bool) (s : TEState) (key : String) (now : Int) : TEState :=
  if s.monitoring = false then s
  else
    let pressed := if s.pressedKeys.contains key = true then s.pressedKeys else s.pressedKeys ++ [key]
    let newTimes := handleKeyDownTimes (lookupTimes s.keyPressTimes key) now
    let s1 := { s with
      pressedKeys := pressed
      keyPressTimes := setTimes s.keyPressTimes key newTimes }
    checkKeyTriggers shouldProcess s1 key

/-- `TriggerEngine._handleKeyUp`: when monitoring, remove the key from the
pressed set and cancel (without firing) any hold timer on it. -/
def handleKeyUp (s : TEState) (key : String) : TEState :=
  if s.monitoring = false then s
  else
    { s with
      pressedKeys := s.pressedKeys.filter (fun x => decide (x ≠ key))
      keyHoldTimers := delTimer s.keyHoldTimers key }

/-- Expiry of an armed hold timer on `key` (the `setTimeout` callback in
`_setupHoldTimer`): if the key is still pressed, activate the *captured*
trigger — the callback never re-checks that the trigger is still
registered — then drop the timer entry. -/
def fireHoldTimer (s : TEState) (key : String) : TEState :=
  match findTimer s.keyHoldTimers key with
  | none => s
  | some t =>
    let s1 := if s.pressedKeys.contains key = true then activateTrigger s t else s
    { s1 with keyHoldTimers := delTimer s1.keyHoldTimers key }

/-- Removal from the trigger `Map` by id (`this.triggers.delete`). -/
def removeTriggerById : List Trigger → String → List Trigger
  | [], _ => []
  | t :: rest, id => if t.triggerId = id then removeTriggerById rest id else t :: removeTriggerById rest id

/-- `TriggerEngine.deleteTrigger`: removes the trigger from the catalogue
and does nothing else — in particular `keyHoldTimers` is untouched, so an
armed hold timer for the trigger stays armed. -/
def deleteTrigger (s : TEState) (id : String) : TEState :=
  { s with triggers := removeTriggerById s.triggers id }

/-- The `robotjs` capability (the Input Injector).  Each native call may
fail, which we model with `Except`; the whole capability may be absent
(`robot = null` after the failed `require`), which call sites model with
`Option Robot`. -/
structure Robot where
  keyTap : String → Except String Unit
  keyToggle : String → String → Except String Unit
  mouseClick : JsVal → Except String Unit
  moveMouse : Int → Int → Except String Unit

/-- `MacroEngine._convertKeyName`: the canonical lookup table from logical
key names to robotjs symbols, falling back to lower-casing. -/
def convertKeyName (keyName : String) : String :=
  match keyName with
  | "Space" => "space"
  | "Enter" => "enter"
  | "Tab" => "tab"
  | "Shift" => "shift"
  | "Control" => "control"
  | "Alt" => "alt"
  | "Escape" => "escape"
  | "Backspace" => "backspace"
  | "Delete" => "delete"
  | "Home" => "home"
  | "End" => "end"
  | "PageUp" => "pageup"
  | "PageDown" => "pagedown"
  | "ArrowUp" => "up"
  | "ArrowDown" => "down"
  | "ArrowLeft" => "left"
  | "ArrowRight" => "right"
  | "CapsLock" => "capslock"
  | "Meta" => "command"
  | _ => keyName.toLower

/-- The dispatch body of `MacroEngine._executeAction` *without* its
`try/catch`: timer delays just sleep; the keyboard/mouse branches return
immediately when `robot` is absent (after a console warning) and otherwise
forward to the injector, whose failure propagates; unknown kinds
(joystick actions) have no branch and are no-ops. -/
def executeActionE (robot : Option Robot) (a : MacroAction) : Except String Unit :=
  if a.actionType = "timer_delay" then Except.ok ()
  else if a.actionType = "keyboard_key" then
    match robot with
    | none => Except.ok ()
    | some rb => rb.keyTap (convertKeyName a.inputName)
  else if a.actionType = "keyboard_hold" then
    match robot with
    | none => Except.ok ()
    | some rb => rb.keyToggle (convertKeyName a.inputName) "down"
  else if a.actionType = "keyboard_release" then
    match robot with
    | none => Except.ok ()
    | some rb => rb.keyToggle (convertKeyName a.inputName) "up"
  else if a.actionType = "mouse_click" then
    match robot with
    | none => Except.ok ()
    | some rb => rb.mouseClick (if a.value.truthy = true then a.value else JsVal.str "left")
  else if a.actionType = "mouse_move" then
    match robot with
    | none => Except.ok ()
    | some rb =>
      match a.value with
      | JsVal.pos x y => rb.moveMouse x y
      | _ => Except.ok ()
  else Except.ok ()

/-- `MacroEngine._executeAction` including its `try/catch`: any error from
the dispatch body is caught and logged, and the call completes normally. -/
def executeAction (robot : Option Robot) (a : MacroAction) : Except String Unit :=
  match executeActionE robot a with
  | Except.ok _ => Except.ok ()
  | Except.error _ => Except.ok ()

/-- Result of the inner `for (const action of macro.actions)` loop of one
pass: the actions that began (each paired with the index of the stop-flag
read that preceded it), the next read index, whether the stop flag was
observed set, and whether an executor error escaped. -/
structure ExecRes where
  trace : List (MacroAction × Nat)
  reads : Nat
  observed : Bool
  failedEx : Bool
  deriving DecidableEq

/-- The inner action loop of `MacroEngine._playbackLoop`: before each
action the stop flag is read (`if (stopFlag.stopped) break;`); an executor
error aborts the loop by propagating (which the real, catching
`_executeAction` never does). -/
def execActions (exec : MacroAction → Except String Unit) (stop : Nat → Bool) :
    List MacroAction → Nat → ExecRes
  | [], r => { trace := [], reads := r, observed := false, failedEx := false }
  | a :: rest, r =>
    if stop r = true then { trace := [], reads := r + 1, observed := true, failedEx := false }
    else
      match exec a with
      | Except.error _ => { trace := [(a, r)], reads := r + 1, observed := false, failedEx := true }
      | Except.ok _ =>
        let res := execActions exec stop rest (r + 1)
        { trace := (a, r) :: res.trace, reads := res.reads, observed := res.observed,
          failedEx := res.failedEx }

/-- Outcome of running `_playbackLoop` with a given fuel: normal return
with the trace of begun actions, an escaped executor error with the trace
so far, or fuel exhaustion (the loop was still running after `fuel`
iterations of the `while`). -/
inductive PlayResult where
  | ok : List (MacroAction × Nat) → PlayResult
  | failed : List (MacroAction × Nat) → PlayResult
  | out : PlayResult
  deriving DecidableEq

/-- True exactly when an executor error escaped the loop. -/
def PlayResult.isFailed : PlayResult → Bool
  | PlayResult.failed _ => true
  | _ => false

/-- The trace of begun actions carried by a result. -/
def PlayResult.resTrace : PlayResult → List (MacroAction × Nat)
  | PlayResult.ok t => t
  | PlayResult.failed t => t
  | PlayResult.out => []

/-- Prepend an earlier pass's trace to a later result. -/
def appendResult (pre : List (MacroAction × Nat)) : PlayResult → PlayResult
  | PlayResult.ok t => PlayResult.ok (pre ++ t)
  | PlayResult.failed t => PlayResult.failed (pre ++ t)
  | PlayResult.out => PlayResult.out

/-- `MacroEngine._playbackLoop`, one `while` iteration per unit of fuel.
`r` is the index of the next stop-flag read, `iter` the JS `iteration`
variable.  Faithfully to the source: the `while` condition reads the flag;
with `repeatCount > 0` the iteration counter is bumped and checked; then
the inner action loop runs; `if (repeatCount === 1) break` ends the
session after the first pass. -/
def playbackAux (exec : MacroAction → Except String Unit) (stop : Nat → Bool)
    (repeatCount : Int) (actions : List MacroAction) : Nat → Nat → Int → PlayResult
  | 0, _, _ => PlayResult.out
  | fuel + 1, r, iter =>
    if stop r = true then PlayResult.ok []
    else
      let iter2 := if repeatCount > 0 then iter + 1 else iter
      if repeatCount > 0 ∧ iter2 > repeatCount then PlayResult.ok []
      else
        let res := execActions exec stop actions (r + 1)
        if res.failedEx = true then PlayResult.failed res.trace
        else if repeatCount = 1 then PlayResult.ok res.trace
        else appendResult res.trace (playbackAux exec stop repeatCount actions fuel res.reads iter2)

/-- `_playbackLoop` run from the start on a macro (read index 0,
`iteration = 0`). -/
def playbackLoop (exec : MacroAction → Except String Unit) (stop : Nat → Bool)
    (m : Macro) (fuel : Nat) : PlayResult :=
  playbackAux exec stop m.repeatCount m.actions fuel 0 0

/-- Value of a stop flag by generation index (`false` when out of range;
generations are only ever appended). -/
def boolAt : List Bool → Nat → Bool
  | [], _ => false
  | b :: _, 0 => b
  | _ :: rest, n + 1 => boolAt rest n

/-- Set the flag of one generation to a value (`stopFlag.stopped = true`). -/
def boolSet : List Bool → Nat → Bool → List Bool
  | [], _, _ => []
  | _ :: rest, 0, v => v :: rest
  | b :: rest, n + 1, v => b :: boolSet rest n v

/-- One playback session of the concurrency model: the generation index of
its stop flag, whether its `_playbackLoop` is still running, and how many
actions it has begun. -/
structure Sess where
  flagId : Nat
  running : Bool
  begun : Nat
  deriving DecidableEq

/-- Index a session list. -/
def sessAt : List Sess → Nat → Option Sess
  | [], _ => none
  | s :: _, 0 => some s
  | _ :: rest, n + 1 => sessAt rest n

/-- Update one session in place. -/
def sessSet : List Sess → Nat → Sess → List Sess
  | [], _, _ => []
  | _ :: rest, 0, v => v :: rest
  | s :: rest, n + 1, v => s :: sessSet rest n v

/-- State of one `MacroEngine` as seen by the playback-coordination code,
restricted to a single macro id (the engine's maps are keyed by macro id
and ids do not interact).  `flags` holds every stop flag ever created, by
generation; `entry` is the generation currently in `this.stopFlags` for
this id (`none` = no entry); `active` is `this.activePlaybacks.has(id)`;
`sessions` are all sessions ever spawned, in spawn order. -/
structure MEState where
  flags : List Bool
  entry : Option Nat
  active : Bool
  sessions : List Sess
  deriving DecidableEq

/-- Current value of a session stop flag. -/
def getFlag (s : MEState) (i : Nat) : Bool := boolAt s.flags i

/-- The synchronous prefix of `MacroEngine.playMacro` for an existing,
enabled macro, up to the first suspension of the freshly started
`_playbackLoop`: if a session is active, `stopMacro` sets the flag found
in `stopFlags` (when present); then a fresh flag is created and stored,
`activePlaybacks` is set, and the new loop runs synchronously until its
first `await` — in particular its first action begins *within this step*,
before any suspended older session can resume. -/
def playStep (s : MEState) : MEState :=
  let flags1 :=
    if s.active = true then
      match s.entry with
      | some f => boolSet s.flags f true
      | none => s.flags
    else s.flags
  let fid := flags1.length
  { flags := flags1 ++ [false]
    entry := some fid
    active := true
    sessions := s.sessions ++ [{ flagId := fid, running := true, begun := 1 }] }

/-- One resumption of session `i` at a suspension point: the session reads
its own stop flag; if set, `_playbackLoop` returns and the *continuation
of the `playMacro` call that spawned it* runs its cleanup, which deletes
the `activePlaybacks` and `stopFlags` entries for the macro id — whoever
those entries belong to by now; if not set, the session begins its next
action and suspends again.  (This is the checkpoint granularity of
`_playbackLoop` for a repeat-count-0 macro.) -/
def runStep (s : MEState) (i : Nat) : MEState :=
  match sessAt s.sessions i with
  | none => s
  | some sess =>
    if sess.running = false then s
    else if getFlag s sess.flagId = true then
      { s with
        sessions := sessSet s.sessions i { sess with running := false }
        active := false
        entry := none }
    else
      { s with sessions := sessSet s.sessions i { sess with begun := sess.begun + 1 } }

/-- A schedulable event of the single-threaded renderer: a `playMacro`
call for this macro id, or the resumption of session `i`. -/
inductive MEStep where
  | play : MEStep
  | run : Nat → MEStep
  deriving DecidableEq

/-- Apply one scheduled event. -/
def meStepFn (s : MEState) (st : MEStep) : MEState :=
  match st with
  | MEStep.play => playStep s
  | MEStep.run i => runStep s i

/-- Run a schedule from a given state. -/
def meRunFrom (s : MEState) (steps : List MEStep) : MEState :=
  steps.foldl meStepFn s

/-- The engine before any playback: no flags, no map entries, no sessions. -/
def meInit : MEState :=
  { flags := [], entry := none, active := false, sessions := [] }

/-- Run a schedule from the initial engine state. -/
def meRun (steps : List MEStep) : MEState := meRunFrom meInit steps

/-- Concrete keyboard action used by the playback examples. -/
def actA : MacroAction :=
  { actionId := "a1", actionType := "keyboard_key", deviceId := none,
    inputName := "A", value := JsVal.null, duration := 0 }

/-- Concrete timer-delay action used by the playback examples. -/
def actB : MacroAction :=
  { actionId := "a2", actionType := "timer_delay", deviceId := none,
    inputName := "", value := JsVal.null, duration := 100 }

/-- A macro with two actions and repeat count 2. -/
def macro2 : Macro :=
  { macroId := "m2", name := "Two", actions := [actA, actB], repeatCount := 2,
    enabled := true, description := "", createdAt := "2024-01-01T00:00:00.000Z",
    modifiedAt := "2024-01-01T00:00:00.000Z" }

/-- A macro with repeat count 0, the documented infinite-loop setting. -/
def macroInfLoop : Macro :=
  { macroId := "m0", name := "Loop", actions := [actA], repeatCount := 0,
    enabled := true, description := "", createdAt := "2024-01-01T00:00:00.000Z",
    modifiedAt := "2024-01-01T00:00:00.000Z" }

/-- A macro with a negative repeat count. -/
def macroNeg : Macro :=
  { macroId := "mn", name := "Neg", actions := [actA], repeatCount := -2,
    enabled := true, description := "", createdAt := "2024-01-01T00:00:00.000Z",
    modifiedAt := "2024-01-01T00:00:00.000Z" }

/-- A trigger whose hold duration is recorded as 0. -/
def trigHold0 : Trigger :=
  { triggerId := "tr0", triggerType := "key_hold", macroId := "m0",
    deviceId := none, inputName := "F", modifiers := [],
    axisThreshold := halfRat, holdDuration := 0, doubleTapWindow := 300,
    enabled := true }

/-- A stop-flag oracle that reads `false` and never stops. -/
def neverStop : Nat → Bool := fun _ => false

/-- A stop-flag oracle set from the third read on (monotone). -/
def stop3 : Nat → Bool := fun n => decide (3 ≤ n)

/-- An executor that always succeeds (used to compare against). -/
def pureExec : MacroAction → Except String Unit := fun _ => Except.ok ()

/-- A hold trigger on key `f`, as the C5 scenario requires. -/
def holdTrigF : Trigger :=
  { triggerId := "t1", triggerType := "key_hold", macroId := "m1",
    deviceId := none, inputName := "f", modifiers := [],
    axisThreshold := halfRat, holdDuration := 500, doubleTapWindow := 300,
    enabled := true }

/-- A device-gating oracle that lets every device through. -/
def spAll : String → Bool := fun _ => true

/-- Trigger-engine state holding only the hold trigger on `f`. -/
def teS0 : TEState :=
  { monitoring := true, triggers := [holdTrigF], pressedKeys := [],
    keyPressTimes := [], keyHoldTimers := [], activations := [] }

/-- Key `f` goes down at time 0: the hold timer is armed. -/
def teS1 : TEState := handleKeyDown spAll teS0 "f" 0

/-- The hold trigger is deleted while its timer is armed. -/
def teS2 : TEState := deleteTrigger teS1 "t1"

/-- The armed timer then expires with `f` still held. -/
def teS3 : TEState := fireHoldTimer teS2 "f"

/-- A double-tap trigger on key `g` with a 300 ms window. -/
def dtTrig : Trigger :=
  { triggerId := "t2", triggerType := "key_double_tap", macroId := "m1",
    deviceId := none, inputName := "g", modifiers := [],
    axisThreshold := halfRat, holdDuration := 500, doubleTapWindow := 300,
    enabled := true }

/-- Trigger-engine state holding only the double-tap trigger, with one
earlier press of `g` recorded at time 100. -/
def teD0 : TEState :=
  { monitoring := true, triggers := [dtTrig], pressedKeys := [],
    keyPressTimes := [("g", [100])], keyHoldTimers := [], activations := [] }

/-- A one-action macro used by the moveAction example. -/
def macroM9 : Macro :=
  { macroId := "m9", name := "Nine", actions := [actA], repeatCount := 1,
    enabled := true, description := "", createdAt := "2024-01-01T00:00:00.000Z",
    modifiedAt := "2024-01-01T00:00:00.000Z" }

/-- The catching `_executeAction` always completes normally, whatever the
injector does. -/
theorem executeAction_ok (robot : Option Robot) (a : MacroAction) :
    executeAction robot a = Except.ok () := by
  unfold executeAction
  cases executeActionE robot a <;> rfl

/-- With a succeeding executor and a never-set stop flag, one pass of the
inner loop begins every action in order and consumes one read per action. -/
theorem execActions_pure (exec : MacroAction → Except String Unit)
    (hexec : ∀ a, exec a = Except.ok ()) (acts : List MacroAction) : ∀ (r : Nat),
    (execActions exec neverStop acts r).failedEx = false ∧
    (execActions exec neverStop acts r).observed = false ∧
    (execActions exec neverStop acts r).reads = r + acts.length ∧
    (execActions exec neverStop acts r).trace.map Prod.fst = acts := by
  induction acts with
  | nil => intro r; simp [execActions]
  | cons a rest ih =>
    intro r
    obtain ⟨h1, h2, h3, h4⟩ := ih (r + 1)
    refine ⟨?_, ?_, ?_, ?_⟩
    · simp [execActions, neverStop, hexec a, h1]
    · simp [execActions, neverStop, hexec a, h2]
    · simp [execActions, neverStop, hexec a, h3]
      omega
    · simp [execActions, neverStop, hexec a, h4]

/-- With a succeeding executor no pass ever reports an escaped error. -/
theorem execActions_nofail (exec : MacroAction → Except String Unit)
    (hexec : ∀ a, exec a = Except.ok ()) (stop : Nat → Bool)
    (acts : List MacroAction) : ∀ (r : Nat),
    (execActions exec stop acts r).failedEx = false := by
  induction acts with
  | nil => intro r; simp [execActions]
  | cons a rest ih =>
    intro r
    by_cases hs : stop r = true
    · simp [execActions, hs]
    · simp [execActions, hs, hexec a, ih (r + 1)]

/-- The read counter never decreases across the inner loop. -/
theorem execActions_reads_ge (exec : MacroAction → Except String Unit) (stop : Nat → Bool)
    (acts : List MacroAction) : ∀ (r : Nat), r ≤ (execActions exec stop acts r).reads := by
  induction acts with
  | nil => intro r; simp [execActions]
  | cons a rest ih =>
    intro r
    by_cases hs : stop r = true
    · simp [execActions, hs]
    · cases he : exec a with
      | error e => simp [execActions, hs, he]
      | ok u =>
        have := ih (r + 1)
        simp only [execActions, if_neg hs, he]
        omega

/-- Every action begun by the inner loop was preceded by a stop-flag read
that returned `false` (the read whose index it carries). -/
theorem execActions_checked (exec : MacroAction → Except String Unit) (stop : Nat → Bool)
    (acts : List MacroAction) : ∀ (r : Nat) (p : MacroAction × Nat),
    p ∈ (execActions exec stop acts r).trace → stop p.2 = false := by
  induction acts with
  | nil => intro r p hp; simp [execActions] at hp
  | cons a rest ih =>
    intro r p hp
    by_cases hs : stop r = true
    · simp [execActions, hs] at hp
    · cases he : exec a with
      | error e =>
        simp [execActions, hs, he] at hp
        subst hp
        simpa using hs
      | ok u =>
        simp only [execActions, if_neg hs, he] at hp
        simp at hp
        rcases hp with hp | hp
        · subst hp; simpa using hs
        · exact ih (r + 1) p hp

/-- Prepending a pass trace does not change whether an error escaped. -/
theorem appendResult_isFailed (pre : List (MacroAction × Nat)) (x : PlayResult) :
    (appendResult pre x).isFailed = x.isFailed := by
  cases x <;> rfl

/-- Membership in the trace of a stitched result comes from one side. -/
theorem mem_appendResult (pre : List (MacroAction × Nat)) (x : PlayResult)
    (p : MacroAction × Nat) (hp : p ∈ (appendResult pre x).resTrace) :
    p ∈ pre ∨ p ∈ x.resTrace := by
  cases x with
  | ok t => simpa [appendResult, PlayResult.resTrace] using hp
  | failed t => simpa [appendResult, PlayResult.resTrace] using hp
  | out => simp [appendResult, PlayResult.resTrace] at hp

/-- A repeat count that is zero or negative makes `_playbackLoop` behave
exactly as repeat count 0: both guards mentioning `repeatCount` are dead. -/
theorem playback_nonpos_eq_zero (exec : MacroAction → Except String Unit) (stop : Nat → Bool)
    (R : Int) (hR : R ≤ 0) (acts : List MacroAction) : ∀ (fuel r : Nat) (j : Int),
    playbackAux exec stop R acts fuel r j = playbackAux exec stop 0 acts fuel r j := by
  intro fuel
  induction fuel with
  | zero => intro r j; rfl
  | succ fuel ih =>
    intro r j
    have hR1 : ¬ R > 0 := by omega
    have hR3 : ¬ R = 1 := by omega
    by_cases hs : stop r = true
    · simp [playbackAux, hs]
    · simp only [playbackAux, if_neg hs, if_neg hR1]
      simp only [hR1, if_false, hR3]
      simp [ih]

/-- With a succeeding executor and a never-set stop flag, a zero (or, via
`playback_nonpos_eq_zero`, negative) repeat count runs out of any fuel:
the `while` loop never exits. -/
theorem playback_out (exec : MacroAction → Except String Unit)
    (hexec : ∀ a, exec a = Except.ok ()) (R : Int) (hR : R ≤ 0) (acts : List MacroAction) :
    ∀ (fuel r : Nat) (j : Int), playbackAux exec neverStop R acts fuel r j = PlayResult.out := by
  intro fuel
  induction fuel with
  | zero => intro r j; rfl
  | succ fuel ih =>
    intro r j
    have hR1 : ¬ R > 0 := by omega
    have hR3 : ¬ R = 1 := by omega
    have hfail := (execActions_pure exec hexec acts (r + 1)).1
    simp [playbackAux, neverStop, hR1, hR3, hfail, ih, appendResult]

/-- With the catching executor (or any always-succeeding one) no fuel, no
oracle and no repeat count can make an error escape `_playbackLoop`. -/
theorem playback_nofail (exec : MacroAction → Except String Unit)
    (hexec : ∀ a, exec a = Except.ok ()) (stop : Nat → Bool) (R : Int)
    (acts : List MacroAction) : ∀ (fuel r : Nat) (j : Int),
    (playbackAux exec stop R acts fuel r j).isFailed = false := by
  intro fuel
  induction fuel with
  | zero => intro r j; rfl
  | succ fuel ih =>
    intro r j
    by_cases hs : stop r = true
    · simp [playbackAux, hs, PlayResult.isFailed]
    · simp only [playbackAux, if_neg hs]
      by_cases hlim : R > 0 ∧ (if R > 0 then j + 1 else j) > R
      · have h1 : R > 0 := hlim.1
        have h2 : R < j + 1 := by
          have h3 := hlim.2
          rw [if_pos h1] at h3
          omega
        simp [h1, h2, PlayResult.isFailed]
      · simp only [if_neg hlim]
        have hfail := execActions_nofail exec hexec stop acts (r + 1)
        simp only [hfail, Bool.false_eq_true, if_false]
        by_cases hR1 : R = 1
        · simp [hR1, PlayResult.isFailed]
        · simp [hR1, appendResult_isFailed, ih]

/-- Every action begun by `_playbackLoop` was preceded by a stop-flag read
that returned `false`. -/
theorem playback_checked (exec : MacroAction → Except String Unit) (stop : Nat → Bool)
    (R : Int) (acts : List MacroAction) : ∀ (fuel r : Nat) (j : Int) (p : MacroAction × Nat),
    p ∈ (playbackAux exec stop R acts fuel r j).resTrace → stop p.2 = false := by
  intro fuel
  induction fuel with
  | zero => intro r j p hp; simp [playbackAux, PlayResult.resTrace] at hp
  | succ fuel ih =>
    intro r j p hp
    by_cases hs : stop r = true
    · simp [playbackAux, hs, PlayResult.resTrace] at hp
    · simp only [playbackAux, if_neg hs] at hp
      by_cases hlim : R > 0 ∧ (if R > 0 then j + 1 else j) > R
      · have h1 : R > 0 := hlim.1
        have h2 : R < j + 1 := by
          have h3 := hlim.2
          rw [if_pos h1] at h3
          omega
        simp [h1, h2, PlayResult.resTrace] at hp
      · simp only [if_neg hlim] at hp
        by_cases hfail : (execActions exec stop acts (r + 1)).failedEx = true
        · rw [if_pos hfail] at hp
          exact execActions_checked exec stop acts (r + 1) p hp
        · simp only [hfail, Bool.false_eq_true, if_false] at hp
          by_cases hR1 : R = 1
          · rw [if_pos hR1] at hp
            exact execActions_checked exec stop acts (r + 1) p hp
          · rw [if_neg hR1] at hp
            rcases mem_appendResult _ _ p hp with hmem | hmem
            · exact execActions_checked exec stop acts (r + 1) p hmem
            · exact ih (execActions exec stop acts (r + 1)).reads
                (if R > 0 then j + 1 else j) p hmem

/-- Once the (monotone) stop flag is set, `_playbackLoop` returns normally
given enough fuel: each `while` iteration performs at least one read, so
after at most `k + 1` iterations the set flag is observed. -/
theorem playback_terminates (exec : MacroAction → Except String Unit)
    (hexec : ∀ a, exec a = Except.ok ()) (stop : Nat → Bool)
    (hmono : ∀ i j, i ≤ j → stop i = true → stop j = true)
    (k : Nat) (hk : stop k = true) (R : Int) (acts : List MacroAction) :
    ∀ (fuel r : Nat) (j : Int), k + 1 ≤ r + fuel → 1 ≤ fuel →
    ∃ tr, playbackAux exec stop R acts fuel r j = PlayResult.ok tr := by
  intro fuel
  induction fuel with
  | zero =>
    intro r j hbound hpos
    omega
  | succ fuel ih =>
    intro r j hbound hpos
    by_cases hs : stop r = true
    · exact ⟨[], by simp [playbackAux, hs]⟩
    · have hrk : r < k := by
        by_contra hge
        exact hs (hmono k r (by omega) hk)
      by_cases hlim : R > 0 ∧ (if R > 0 then j + 1 else j) > R
      · have h1 : R > 0 := hlim.1
        have h2 : R < j + 1 := by
          have h3 := hlim.2
          rw [if_pos h1] at h3
          omega
        exact ⟨[], by simp [playbackAux, hs, h1, h2]⟩
      · have hfail := execActions_nofail exec hexec stop acts (r + 1)
        have hreads := execActions_reads_ge exec stop acts (r + 1)
        by_cases hR1 : R = 1
        · have hj : ¬ (0 : Int) < j := by
            intro h0
            exact hlim ⟨by omega, by rw [if_pos (by omega : R > 0)]; omega⟩
          exact ⟨(execActions exec stop acts (r + 1)).trace,
            by simp [playbackAux, hs, hfail, hR1, hj]⟩
        · obtain ⟨tr, htr⟩ := ih (execActions exec stop acts (r + 1)).reads
            (if R > 0 then j + 1 else j) (by omega) (by omega)
          exact ⟨(execActions exec stop acts (r + 1)).trace ++ tr,
            by simp [playbackAux, hs, hlim, hfail, hR1, htr, appendResult]⟩

/-- One unrolling of the `while` loop of `_playbackLoop`. -/
theorem playbackAux_succ (exec : MacroAction → Except String Unit) (stop : Nat → Bool)
    (R : Int) (acts : List MacroAction) (fuel r : Nat) (j : Int) :
    playbackAux exec stop R acts (fuel + 1) r j =
      if stop r = true then PlayResult.ok []
      else if R > 0 ∧ (if R > 0 then j + 1 else j) > R then PlayResult.ok []
      else if (execActions exec stop acts (r + 1)).failedEx = true then
        PlayResult.failed (execActions exec stop acts (r + 1)).trace
      else if R = 1 then PlayResult.ok (execActions exec stop acts (r + 1)).trace
      else appendResult (execActions exec stop acts (r + 1)).trace
        (playbackAux exec stop R acts fuel (execActions exec stop acts (r + 1)).reads
          (if R > 0 then j + 1 else j)) := rfl

/-- With a succeeding executor and a never-set stop flag, a repeat count
`R = j + n ≥ 1` starting at iteration counter `j ≥ 0` performs exactly the
`n` remaining passes, in order, and returns normally within `n + 1`
`while` iterations. -/
theorem playback_pure_passes (exec : MacroAction → Except String Unit)
    (hexec : ∀ a, exec a = Except.ok ()) (acts : List MacroAction) (R : Int) :
    ∀ (n : Nat) (j : Int) (r : Nat), 0 ≤ j → R = j + n → 1 ≤ R →
    ∃ tr, playbackAux exec neverStop R acts (n + 1) r j = PlayResult.ok tr ∧
      tr.map Prod.fst = (List.replicate n acts).flatten := by
  intro n
  induction n with
  | zero =>
    intro j r hj hR h1
    have hpos : R > 0 := by omega
    have hlt : R < j + 1 := by omega
    exact ⟨[], by simp [playbackAux, neverStop, hpos, hlt], by simp⟩
  | succ n ihn =>
    intro j r hj hR h1
    have hpos : R > 0 := by omega
    have hns : ¬ neverStop r = true := by simp [neverStop]
    have hlim : ¬ (R > 0 ∧ (if R > 0 then j + 1 else j) > R) := by
      rw [if_pos hpos]
      omega
    obtain ⟨hf, ho, hreads, htr⟩ := execActions_pure exec hexec acts (r + 1)
    by_cases hR1 : R = 1
    · have hn0 : n = 0 := by omega
      subst hn0
      refine ⟨(execActions exec neverStop acts (r + 1)).trace, ?_, by simp [htr]⟩
      rw [playbackAux_succ, if_neg hns, if_neg hlim, hf]
      simp [hR1]
    · obtain ⟨tr2, h2, hmap2⟩ := ihn (j + 1) (execActions exec neverStop acts (r + 1)).reads
        (by omega) (by omega) h1
      refine ⟨(execActions exec neverStop acts (r + 1)).trace ++ tr2, ?_, ?_⟩
      · rw [playbackAux_succ, if_neg hns, if_neg hlim, hf]
        rw [if_neg (by simp), if_neg hR1, if_pos hpos, h2]
        rfl
      · simp [htr, hmap2, List.replicate_succ]

/-- Claim C1 (code bug): serialize-then-deserialize does NOT preserve the
recorded numeric fields when their value is 0, because `fromJSON` restores
them with JS `||`, which treats a present `0` like an absent field.  A
macro saved with `repeatCount = 0` — the value the code itself documents
as "infinite loop" — loads back with `repeatCount = 1`, and a trigger
saved with `holdDuration = 0` loads back with the default 500. -/
theorem claim_C1_roundtrip_drops_zero :
    macroInfLoop.repeatCount = 0 ∧
    (Macro.fromJSON (Macro.toJSON macroInfLoop) "fresh-id" "2024-02-02T00:00:00.000Z").repeatCount = 1 ∧
    trigHold0.holdDuration = 0 ∧
    (Trigger.fromJSON (Trigger.toJSON trigHold0) "fresh-id").holdDuration = 500 :=
  ⟨rfl, by decide, rfl, by decide⟩

/-- Claim C2: playing a macro whose repeat count is `N ≥ 1` with a stop
flag that is never set terminates (within `N + 1` iterations of the
`while` loop) having begun exactly `N` complete passes over the action
list — each action runs exactly `N` times, in list order within every
pass — whatever the injector does, since `_executeAction` catches its
errors. -/
theorem claim_C2_repeat_exact (robot : Option Robot) (m : Macro) (N : Nat)
    (hN : m.repeatCount = (N : Int)) (h1 : 1 ≤ N) :
    ∃ tr, playbackLoop (executeAction robot) neverStop m (N + 1) = PlayResult.ok tr ∧
      tr.map Prod.fst = (List.replicate N m.actions).flatten := by
  unfold playbackLoop
  rw [hN]
  exact playback_pure_passes (executeAction robot) (executeAction_ok robot) m.actions
    (N : Int) N 0 0 (by omega) (by omega) (by exact_mod_cast h1)

/-- Witness for C2 at `N = 2` on a concrete two-action macro. -/
theorem claim_C2_repeat_exact_witness :
    macro2.repeatCount = ((2 : Nat) : Int) ∧ 1 ≤ 2 ∧
    ∃ tr, playbackLoop (executeAction none) neverStop macro2 (2 + 1) = PlayResult.ok tr ∧
      tr.map Prod.fst = (List.replicate 2 macro2.actions).flatten :=
  ⟨by decide, by decide, claim_C2_repeat_exact none macro2 2 (by decide) (by decide)⟩

/-- Claim C3: with repeat count 0, (a) if the stop flag is never set the
`while` loop exhausts every fuel — playback never terminates on its own;
(b) if the (monotone: once set, stays set) stop flag is set by read `k`,
the loop returns normally given fuel at least `k + 1`, and every action it
ever began was preceded by a stop-flag read that returned `false` — so
once the flag is observed set, no further action of the session begins. -/
theorem claim_C3_zero_repeat_runs_until_stop :
    (∀ (robot : Option Robot) (m : Macro) (fuel : Nat), m.repeatCount = 0 →
      playbackLoop (executeAction robot) neverStop m fuel = PlayResult.out) ∧
    (∀ (robot : Option Robot) (m : Macro) (stop : Nat → Bool) (k fuel : Nat),
      m.repeatCount = 0 →
      (∀ i j, i ≤ j → stop i = true → stop j = true) →
      stop k = true → k + 1 ≤ fuel →
      ∃ tr, playbackLoop (executeAction robot) stop m fuel = PlayResult.ok tr ∧
        ∀ p ∈ tr, stop p.2 = false) := by
  constructor
  · intro robot m fuel h0
    unfold playbackLoop
    rw [h0]
    exact playback_out _ (executeAction_ok robot) 0 (by omega) m.actions fuel 0 0
  · intro robot m stop k fuel h0 hmono hk hfuel
    unfold playbackLoop
    rw [h0]
    obtain ⟨tr, htr⟩ := playback_terminates _ (executeAction_ok robot) stop hmono k hk 0
      m.actions fuel 0 0 (by omega) (by omega)
    refine ⟨tr, htr, fun p hp => ?_⟩
    refine playback_checked (executeAction robot) stop 0 m.actions fuel 0 0 p ?_
    rw [htr]
    exact hp

/-- Witness for C3 part (b): a stop flag set from the third read on. -/
theorem claim_C3_zero_repeat_runs_until_stop_witness :
    macroInfLoop.repeatCount = 0 ∧ stop3 3 = true ∧ 3 + 1 ≤ 5 ∧
    ∃ tr, playbackLoop (executeAction none) stop3 macroInfLoop 5 = PlayResult.ok tr ∧
      ∀ p ∈ tr, stop3 p.2 = false := by
  refine ⟨by decide, by decide, by decide, ?_⟩
  exact claim_C3_zero_repeat_runs_until_stop.2 none macroInfLoop stop3 3 5 (by decide)
    (fun i j hij hi => by
      simp only [stop3, decide_eq_true_eq] at hi ⊢
      omega)
    (by decide) (by decide)

/-- Claim C7: any injector failure while executing an action — including
the capability being entirely absent — is caught inside `_executeAction`,
which therefore always completes normally; consequently the playback loop
behaves exactly as with a never-failing executor and an escaped-error
outcome is impossible, whatever the injector, stop flag, repeat count,
action list and fuel. -/
theorem claim_C7_injector_failure_is_noop (robot : Option Robot) :
    (∀ a, executeAction robot a = Except.ok ()) ∧
    ∀ (stop : Nat → Bool) (R : Int) (acts : List MacroAction) (fuel r : Nat) (j : Int),
      playbackAux (executeAction robot) stop R acts fuel r j =
        playbackAux pureExec stop R acts fuel r j ∧
      (playbackAux (executeAction robot) stop R acts fuel r j).isFailed = false := by
  have hfun : executeAction robot = pureExec := funext (fun a => executeAction_ok robot a)
  refine ⟨fun a => executeAction_ok robot a, fun stop R acts fuel r j => ⟨by rw [hfun], ?_⟩⟩
  exact playback_nofail _ (executeAction_ok robot) stop R acts fuel r j

/-- Claim C8: a negative repeat count makes `_playbackLoop` behave exactly
like repeat count 0 — both the `repeatCount > 0` limit check and the
`repeatCount === 1` early exit are dead, so only the stop flag can end the
loop. -/
theorem claim_C8_negative_repeat_like_zero (exec : MacroAction → Except String Unit)
    (stop : Nat → Bool) (m : Macro) (fuel : Nat) (hneg : m.repeatCount ≤ 0) :
    playbackLoop exec stop m fuel = playbackLoop exec stop { m with repeatCount := 0 } fuel := by
  unfold playbackLoop
  exact playback_nonpos_eq_zero exec stop m.repeatCount hneg m.actions fuel 0 0

/-- Witness for C8 on a concrete macro with repeat count `-2`. -/
theorem claim_C8_negative_repeat_like_zero_witness :
    macroNeg.repeatCount ≤ 0 ∧
    playbackLoop pureExec neverStop macroNeg 4 =
      playbackLoop pureExec neverStop { macroNeg with repeatCount := 0 } 4 :=
  ⟨by decide, claim_C8_negative_repeat_like_zero pureExec neverStop macroNeg 4 (by decide)⟩

/-- Claim C5 counterexample: with the hold trigger on `f` armed (key down
at time 0), deleting the trigger leaves the hold timer armed, and when the
timer expires with `f` still held the deleted trigger is activated —
`deleteTrigger` cancels nothing and the stray activation does occur. -/
theorem claim_C5_counterexample :
    teS2.triggers = [] ∧ teS2.keyHoldTimers = [("f", holdTrigF)] ∧ teS3.activations = ["t1"] :=
  ⟨by decide, by decide, by decide⟩

/-- Claim C5 as amended: deleting a trigger only removes it from the
catalogue; any armed hold timer is left untouched, and if the timer's
input is still held at expiry the deleted trigger is activated anyway,
because the timer callback only re-checks that the key is pressed. -/
theorem claim_C5_delete_leaves_timer_armed (s : TEState) (id key : String) (t : Trigger)
    (harm : findTimer (deleteTrigger s id).keyHoldTimers key = some t)
    (hheld : (deleteTrigger s id).pressedKeys.contains key = true) :
    (deleteTrigger s id).keyHoldTimers = s.keyHoldTimers ∧
    (fireHoldTimer (deleteTrigger s id) key).activations = s.activations ++ [t.triggerId] := by
  refine ⟨rfl, ?_⟩
  unfold fireHoldTimer
  rw [harm]
  have hmem : key ∈ s.pressedKeys := by simpa [deleteTrigger] using hheld
  simp [hmem, activateTrigger, deleteTrigger]

/-- Witness for the amended C5 on the concrete armed-timer scenario. -/
theorem claim_C5_delete_leaves_timer_armed_witness :
    findTimer (deleteTrigger teS1 "t1").keyHoldTimers "f" = some holdTrigF ∧
    (deleteTrigger teS1 "t1").pressedKeys.contains "f" = true ∧
    ((deleteTrigger teS1 "t1").keyHoldTimers = teS1.keyHoldTimers ∧
      (fireHoldTimer (deleteTrigger teS1 "t1") "f").activations =
        teS1.activations ++ [holdTrigF.triggerId]) :=
  ⟨by decide, by decide,
    claim_C5_delete_leaves_timer_armed teS1 "t1" "f" holdTrigF (by decide) (by decide)⟩

/-- The double-tap test succeeds exactly when the gap between the two most
recent recorded timestamps is at most the window (given at least two). -/
theorem checkDoubleTap_iff (ts : List Int) (w : Int) (h2 : 2 ≤ ts.length) :
    (checkDoubleTap ts w = true ↔ tapGap ts ≤ w) := by
  unfold checkDoubleTap tapGap
  rw [if_neg (show ¬ ts.length < 2 by omega)]
  cases hrev : ts.reverse with
  | nil =>
    exfalso
    have hlen : ts.length = 0 := by
      rw [← List.length_reverse, hrev]
      rfl
    omega
  | cons b rest =>
    cases rest with
    | nil =>
      exfalso
      have hlen : ts.length = 1 := by
        rw [← List.length_reverse, hrev]
        rfl
      omega
    | cons a rest2 => simp

/-- A `Map.set` immediately followed by a `get` of the same key. -/
theorem lookupTimes_setTimes (l : List (String × List Int)) (k : String) (v : List Int) :
    lookupTimes (setTimes l k v) k = v := by
  induction l with
  | nil => simp [setTimes, lookupTimes]
  | cons p rest ih =>
    by_cases h : p.1 = k
    · simp [setTimes, lookupTimes, h]
    · simp [setTimes, lookupTimes, h, ih]

/-- For an enabled, device-gated double-tap trigger on `key`, the loop body
of `_checkKeyTriggers` reduces to the double-tap test. -/
theorem processKeyTrigger_doubletap (sp : String → Bool) (st : TEState) (t : Trigger)
    (key : String) (he : t.enabled = true) (hg : gatePass sp t = true)
    (ht : t.triggerType = "key_double_tap") (hi : t.inputName = key) :
    processKeyTrigger sp st t key =
      if checkDoubleTap (lookupTimes st.keyPressTimes key) t.doubleTapWindow = true
      then activateTrigger st t else st := by
  unfold processKeyTrigger
  have h1 : ¬ (t.triggerType = "key_press" ∧ t.inputName = key) := by
    rw [ht]
    rintro ⟨hc, -⟩
    exact absurd hc (by decide)
  have h2 : ¬ (t.triggerType = "key_combo" ∧ t.inputName = key ∧
      checkModifiers t.modifiers st.pressedKeys = true) := by
    rw [ht]
    rintro ⟨hc, -⟩
    exact absurd hc (by decide)
  have h3 : ¬ (t.triggerType = "key_hold" ∧ t.inputName = key) := by
    rw [ht]
    rintro ⟨hc, -⟩
    exact absurd hc (by decide)
  rw [if_neg (by simp [he]), if_neg (by simp [hg])]
  simp only [if_neg h1, if_neg h2, if_neg h3, ht, hi]
  simp

/-- Claim C6: for an enabled, gated double-tap trigger that is the (sole)
registered trigger on its input, a key-down event fires it exactly when
the gap between the two most recent recorded press timestamps (after the
event itself is recorded and old entries pruned) is at most the trigger's
window — a gap equal to the window fires, a larger one does not. -/
theorem claim_C6_double_tap_iff (sp : String → Bool) (s : TEState) (t : Trigger)
    (key : String) (now : Int)
    (hm : s.monitoring = true) (hcat : s.triggers = [t]) (he : t.enabled = true)
    (hg : gatePass sp t = true) (ht : t.triggerType = "key_double_tap")
    (hi : t.inputName = key)
    (hlen : 2 ≤ (handleKeyDownTimes (lookupTimes s.keyPressTimes key) now).length) :
    ((handleKeyDown sp s key now).activations = s.activations ++ [t.triggerId] ↔
      tapGap (handleKeyDownTimes (lookupTimes s.keyPressTimes key) now) ≤ t.doubleTapWindow) := by
  unfold handleKeyDown
  rw [if_neg (by simp [hm])]
  rw [← checkDoubleTap_iff _ _ hlen]
  unfold checkKeyTriggers
  simp only [hcat, List.foldl_cons, List.foldl_nil]
  rw [processKeyTrigger_doubletap sp _ t key he hg ht hi]
  simp only [lookupTimes_setTimes]
  by_cases hc : checkDoubleTap (handleKeyDownTimes (lookupTimes s.keyPressTimes key) now)
      t.doubleTapWindow = true
  · simp [hc, activateTrigger]
  · rw [if_neg hc]
    constructor
    · intro habs
      exfalso
      have hlen2 := congrArg List.length habs
      simp at hlen2
    · intro habs
      exact absurd habs hc

/-- Witness for C6 at the boundary: previous press at 100, this press at
400, window 300 — the gap equals the window and the trigger fires. -/
theorem claim_C6_double_tap_iff_witness :
    teD0.monitoring = true ∧ teD0.triggers = [dtTrig] ∧ dtTrig.enabled = true ∧
    gatePass spAll dtTrig = true ∧ dtTrig.triggerType = "key_double_tap" ∧
    dtTrig.inputName = "g" ∧
    2 ≤ (handleKeyDownTimes (lookupTimes teD0.keyPressTimes "g") 400).length ∧
    ((handleKeyDown spAll teD0 "g" 400).activations = teD0.activations ++ [dtTrig.triggerId] ↔
      tapGap (handleKeyDownTimes (lookupTimes teD0.keyPressTimes "g") 400) ≤
        dtTrig.doubleTapWindow) :=
  ⟨rfl, rfl, rfl, rfl, rfl, rfl, by decide,
    claim_C6_double_tap_iff spAll teD0 dtTrig "g" 400 rfl rfl rfl rfl rfl rfl (by decide)⟩

/-- Claim C10: the double-tap check returns `false` whenever fewer than
two presses are recorded for the input; in particular the very first press
after start (or after the history was cleared) can never fire a double-tap
trigger, since recording it into an empty history leaves a single entry. -/
theorem claim_C10_short_history_never_fires :
    (∀ (times : List Int) (w : Int), times.length < 2 → checkDoubleTap times w = false) ∧
    (∀ (now w : Int), checkDoubleTap (handleKeyDownTimes [] now) w = false) := by
  constructor
  · intro times w h
    simp [checkDoubleTap, h]
  · intro now w
    have hone : handleKeyDownTimes [] now = [now] := by
      simp [handleKeyDownTimes, cleanupPressTimes]
    rw [hone]
    simp [checkDoubleTap]

/-- Witness for C10 on a one-entry history. -/
theorem claim_C10_short_history_never_fires_witness :
    ([(5 : Int)].length < 2) ∧ checkDoubleTap [(5 : Int)] 300 = false :=
  ⟨by decide, claim_C10_short_history_never_fires.1 [(5 : Int)] 300 (by decide)⟩

/-- When no action carries the id, `findIndex` comes back `-1`. -/
theorem findIndexById_none (l : List MacroAction) (id : String)
    (h : ∀ a ∈ l, a.actionId ≠ id) : findIndexById l id = none := by
  induction l with
  | nil => rfl
  | cons a rest ih =>
    simp only [findIndexById]
    rw [if_neg (h a (by simp))]
    rw [ih (fun x hx => h x (by simp [hx]))]
    rfl

/-- Claim C9: `moveAction` with an id that occurs in none of the macro's
actions is a complete no-op — the macro (action list and `modifiedAt`
timestamp included) is returned unchanged. -/
theorem claim_C9_move_absent_id_noop (m : Macro) (actionId : String) (newIndex : Int)
    (now : String) (h : ∀ a ∈ m.actions, a.actionId ≠ actionId) :
    Macro.moveAction m actionId newIndex now = m := by
  unfold Macro.moveAction
  rw [findIndexById_none m.actions actionId h]

/-- Witness for C9 on a concrete macro and an id it does not contain. -/
theorem claim_C9_move_absent_id_noop_witness :
    (∀ a ∈ macroM9.actions, a.actionId ≠ "zz") ∧
    Macro.moveAction macroM9 "zz" 7 "2024-03-03T00:00:00.000Z" = macroM9 :=
  ⟨by decide, claim_C9_move_absent_id_noop macroM9 "zz" 7 "2024-03-03T00:00:00.000Z" (by decide)⟩

/-- Claim C4 counterexample.  Schedule: `play` (session 0 starts and
begins its first action); `play` again (session 0's flag is set, session 1
starts and begins its first action — session 0 has *not* yet observed the
flag, so the new session begins before the old one's bookkeeping is
retired); session 0 resumes, observes its flag, and its cleanup deletes
the `activePlaybacks`/`stopFlags` entries — which now belong to session 1,
still running.  A third `play` then finds no active entry, cancels
nothing, and spawns session 2: afterwards sessions 1 and 2 are both
running and both keep beginning actions, so two sessions of the same
macro id are active and their passes interleave. -/
theorem claim_C4_counterexample :
    (meRun [MEStep.play, MEStep.play]).sessions =
      [{ flagId := 0, running := true, begun := 1 },
       { flagId := 1, running := true, begun := 1 }] ∧
    (meRun [MEStep.play, MEStep.play, MEStep.run 0]).active = false ∧
    (meRun [MEStep.play, MEStep.play, MEStep.run 0]).entry = none ∧
    sessAt (meRun [MEStep.play, MEStep.play, MEStep.run 0]).sessions 1 =
      some { flagId := 1, running := true, begun := 1 } ∧
    (meRun [MEStep.play, MEStep.play, MEStep.run 0, MEStep.play,
        MEStep.run 1, MEStep.run 2, MEStep.run 1]).sessions =
      [{ flagId := 0, running := false, begun := 1 },
       { flagId := 1, running := true, begun := 3 },
       { flagId := 2, running := true, begun := 2 }] :=
  ⟨by decide, by decide, by decide, by decide, by decide⟩

/-- A set flag index is within the flag list. -/
theorem boolAt_lt (l : List Bool) : ∀ i, boolAt l i = true → i < l.length := by
  induction l with
  | nil => intro i h; simp [boolAt] at h
  | cons b rest ih =>
    intro i h
    cases i with
    | zero => simp
    | succ n =>
      have := ih n h
      simp
      omega

/-- Appending flags does not disturb existing indices. -/
theorem boolAt_append (l l2 : List Bool) : ∀ i, i < l.length →
    boolAt (l ++ l2) i = boolAt l i := by
  induction l with
  | nil => intro i h; simp at h
  | cons b rest ih =>
    intro i h
    cases i with
    | zero => rfl
    | succ n =>
      have := ih n (by simpa using h)
      simpa [boolAt] using this

/-- Setting any flag to `true` preserves every flag already `true`. -/
theorem boolAt_boolSet_true (l : List Bool) : ∀ i j, boolAt l i = true →
    boolAt (boolSet l j true) i = true := by
  induction l with
  | nil => intro i j h; simp [boolAt] at h
  | cons b rest ih =>
    intro i j h
    cases j with
    | zero =>
      cases i with
      | zero => rfl
      | succ n => exact h
    | succ jm =>
      cases i with
      | zero => exact h
      | succ n => exact ih n jm h

/-- Setting a valid flag index to `true` makes it read `true`. -/
theorem boolAt_boolSet_self (l : List Bool) : ∀ i, i < l.length →
    boolAt (boolSet l i true) i = true := by
  induction l with
  | nil => intro i h; simp at h
  | cons b rest ih =>
    intro i h
    cases i with
    | zero => rfl
    | succ n => exact ih n (by simpa using h)

/-- Setting a flag preserves the length of the flag list. -/
theorem boolSet_length (l : List Bool) : ∀ j v, (boolSet l j v).length = l.length := by
  induction l with
  | nil => intro j v; rfl
  | cons b rest ih =>
    intro j v
    cases j with
    | zero => rfl
    | succ n => simpa [boolSet] using ih n v

/-- A present session index is within the session list. -/
theorem sessAt_lt (l : List Sess) : ∀ i s, sessAt l i = some s → i < l.length := by
  induction l with
  | nil => intro i s h; simp [sessAt] at h
  | cons x rest ih =>
    intro i s h
    cases i with
    | zero => simp
    | succ n =>
      have := ih n s h
      simp
      omega

/-- Appending sessions does not disturb existing indices. -/
theorem sessAt_append (l l2 : List Sess) : ∀ i, i < l.length →
    sessAt (l ++ l2) i = sessAt l i := by
  induction l with
  | nil => intro i h; simp at h
  | cons x rest ih =>
    intro i h
    cases i with
    | zero => rfl
    | succ n =>
      have := ih n (by simpa using h)
      simpa [sessAt] using this

/-- Updating another index leaves a session lookup unchanged. -/
theorem sessAt_sessSet_ne (l : List Sess) : ∀ i j v, ¬ i = j →
    sessAt (sessSet l j v) i = sessAt l i := by
  induction l with
  | nil => intro i j v h; rfl
  | cons x rest ih =>
    intro i j v h
    cases j with
    | zero =>
      cases i with
      | zero => omega
      | succ n => rfl
    | succ jm =>
      cases i with
      | zero => rfl
      | succ n => exact ih n jm v (by omega)

/-- Updating a valid index makes the lookup return the new session. -/
theorem sessAt_sessSet_self (l : List Sess) : ∀ i v, i < l.length →
    sessAt (sessSet l i v) i = some v := by
  induction l with
  | nil => intro i v h; simp at h
  | cons x rest ih =>
    intro i v h
    cases i with
    | zero => rfl
    | succ n => exact ih n v (by simpa using h)

/-- `playMacro` never clears a stop flag: a set flag stays set. -/
theorem getFlag_playStep (s : MEState) (x : Nat) (h : getFlag s x = true) :
    getFlag (playStep s) x = true := by
  unfold getFlag at h
  have hlt : x < s.flags.length := boolAt_lt s.flags x h
  unfold getFlag playStep
  by_cases hact : s.active = true
  · cases hent : s.entry with
    | none =>
      simp only [if_pos hact, hent]
      rw [boolAt_append _ _ x hlt]
      exact h
    | some f =>
      simp only [if_pos hact, hent]
      rw [boolAt_append _ _ x (by rw [boolSet_length]; exact hlt)]
      exact boolAt_boolSet_true s.flags x f h
  · rw [if_neg hact]
    rw [boolAt_append _ _ x hlt]
    exact h

/-- A session resumption never changes any stop flag. -/
theorem getFlag_runStep (s : MEState) (i x : Nat) (h : getFlag s x = true) :
    getFlag (runStep s i) x = true := by
  unfold getFlag runStep
  unfold getFlag at h
  cases hse : sessAt s.sessions i with
  | none => exact h
  | some sess =>
    by_cases hr : sess.running = false
    · simp only [hr, if_pos]
      exact h
    · by_cases hf : getFlag s sess.flagId = true
      · simp only [hr, hf, if_neg, if_pos]
        exact h
      · simp only [hr, hf, if_neg]
        exact h

/-- One scheduled event never lets a session whose stop flag is set begin
another action: the session keeps its flag id and begun-count (it can only
be retired), and its set flag stays set. -/
theorem step_preserves_sess (σ : MEState) (st : MEStep) (i fid b : Nat)
    (hflag : getFlag σ fid = true)
    (hsess : ∃ r0, sessAt σ.sessions i = some { flagId := fid, running := r0, begun := b }) :
    getFlag (meStepFn σ st) fid = true ∧
    ∃ r1, sessAt (meStepFn σ st).sessions i =
      some { flagId := fid, running := r1, begun := b } := by
  obtain ⟨r0, hs0⟩ := hsess
  cases st with
  | play =>
    refine ⟨getFlag_playStep σ fid hflag, r0, ?_⟩
    show sessAt (playStep σ).sessions i = _
    unfold playStep
    rw [sessAt_append _ _ i (sessAt_lt _ i _ hs0)]
    exact hs0
  | run jj =>
    refine ⟨getFlag_runStep σ jj fid hflag, ?_⟩
    show ∃ r1, sessAt (runStep σ jj).sessions i = _
    unfold runStep
    cases hse : sessAt σ.sessions jj with
    | none => exact ⟨r0, hs0⟩
    | some sess =>
      dsimp only
      by_cases hr : sess.running = false
      · rw [if_pos hr]
        exact ⟨r0, hs0⟩
      · by_cases hji : jj = i
        · subst hji
          rw [hs0] at hse
          injection hse with hse2
          have hfld : sess.flagId = fid := by rw [← hse2]
          rw [if_neg hr, if_pos (show getFlag σ sess.flagId = true by rw [hfld]; exact hflag)]
          refine ⟨false, ?_⟩
          rw [sessAt_sessSet_self _ _ _ (sessAt_lt _ _ _ hs0)]
          rw [← hse2]
        · by_cases hgf : getFlag σ sess.flagId = true
          · rw [if_neg hr, if_pos hgf]
            refine ⟨r0, ?_⟩
            rw [sessAt_sessSet_ne _ _ _ _ (fun he => hji he.symm)]
            exact hs0
          · rw [if_neg hr, if_neg hgf]
            refine ⟨r0, ?_⟩
            rw [sessAt_sessSet_ne _ _ _ _ (fun he => hji he.symm)]
            exact hs0

/-- Along any continuation of the schedule, a session whose stop flag is
set never begins another action. -/
theorem runFrom_preserves (post : List MEStep) : ∀ (σ : MEState) (i fid b : Nat),
    getFlag σ fid = true →
    (∃ r0, sessAt σ.sessions i = some { flagId := fid, running := r0, begun := b }) →
    ∃ r1, sessAt (meRunFrom σ post).sessions i =
      some { flagId := fid, running := r1, begun := b } := by
  induction post with
  | nil =>
    intro σ i fid b hf hs
    exact hs
  | cons st rest ih =>
    intro σ i fid b hf hs
    have h := step_preserves_sess σ st i fid b hf hs
    exact ih (meStepFn σ st) i fid b h.1 h.2

/-- Claim C4 as amended: when `playMacro` runs with a session active (an
`activePlaybacks` entry and its `stopFlags` entry present), the old
session's stop flag is set within that same synchronous step — before the
new session is spawned — and a session whose flag is set never begins
another action for the rest of any schedule (its begun-count is frozen;
it can only be retired).  What the original claim adds beyond this is
false: the old session does *not* observe the flag before the new session
begins, and its later cleanup deletes the new session's
`activePlaybacks`/`stopFlags` entries (see the counterexample). -/
theorem claim_C4_stop_signalled_but_bookkeeping_clobbered (s : MEState) (f : Nat)
    (pre post : List MEStep) (i fid : Nat) (r : Bool) (b : Nat)
    (hact : s.active = true) (hent : s.entry = some f) (hlt : f < s.flags.length)
    (hsess : sessAt (meRun pre).sessions i = some { flagId := fid, running := r, begun := b })
    (hflag : getFlag (meRun pre) fid = true) :
    getFlag (playStep s) f = true ∧
    ∃ r2, sessAt (meRunFrom (meRun pre) post).sessions i =
      some { flagId := fid, running := r2, begun := b } := by
  constructor
  · unfold getFlag playStep
    simp only [if_pos hact, hent]
    rw [boolAt_append _ _ f (by rw [boolSet_length]; exact hlt)]
    exact boolAt_boolSet_self s.flags f hlt
  · exact runFrom_preserves post (meRun pre) i fid b hflag ⟨r, hsess⟩

/-- Witness for the amended C4: after one `play`, a second `play` sets the
old flag before spawning; and session 0, whose flag is set after the two
`play`s, keeps its begun-count over two further scheduled events. -/
theorem claim_C4_stop_signalled_witness :
    (meRun [MEStep.play]).active = true ∧
    (meRun [MEStep.play]).entry = some 0 ∧
    0 < (meRun [MEStep.play]).flags.length ∧
    sessAt (meRun [MEStep.play, MEStep.play]).sessions 0 =
      some { flagId := 0, running := true, begun := 1 } ∧
    getFlag (meRun [MEStep.play, MEStep.play]) 0 = true ∧
    (getFlag (playStep (meRun [MEStep.play])) 0 = true ∧
      ∃ r2, sessAt (meRunFrom (meRun [MEStep.play, MEStep.play])
          [MEStep.run 0, MEStep.run 1]).sessions 0 =
        some { flagId := 0, running := r2, begun := 1 }) :=
  ⟨by decide, by decide, by decide, by decide, by decide,
    claim_C4_stop_signalled_but_bookkeeping_clobbered (meRun [MEStep.play]) 0
      [MEStep.play, MEStep.play] [MEStep.run 0, MEStep.run 1] 0 0 true 1
      (by decide) (by decide) (by decide) (by decide) (by decide)⟩
